import Mathlib

/-!
Shallow embedding of `scripts/design/render-homepage-hero.py`, the deterministic
homepage-hero renderer, together with theorems checking the specification's
claims against it.

The script composes a fixed 1440x960 canvas from procedural stages (background
gradient, radial highlight, grid, UI panels, seeded particles, vignette) and
flattens the result to opaque RGB.  Pure arithmetic (color interpolation,
gradients, chart geometry, the pseudo-random draw order) is embedded exactly;
library internals that live outside the repository (PIL's rasterizer and
Gaussian blur, the `random` module's generator, `pathlib` path arithmetic) are
modelled from the specification, as documented on each such definition.
Python floats are modelled by exact rationals.
-/

namespace HeroRender

/-- Python `int()` applied to a numeric value: truncation toward zero.
The float arithmetic of the script is modelled by exact rationals. -/
def pyint (q : ℚ) : ℤ := if 0 ≤ q then ⌊q⌋ else -⌊-q⌋

/-- `WIDTH = 1440` from the source. -/
def WIDTH : ℕ := 1440

/-- `HEIGHT = 960` from the source. -/
def HEIGHT : ℕ := 960

/-- `PALETTE["navy_top"] = (9, 23, 48)`. -/
def navy_top : List ℤ := [9, 23, 48]

/-- `PALETTE["navy_bottom"] = (36, 12, 64)`. -/
def navy_bottom : List ℤ := [36, 12, 64]

/-- `PALETTE["overlay_start"] = (15, 44, 84)`. -/
def overlay_start : List ℤ := [15, 44, 84]

/-- `PALETTE["overlay_end"] = (55, 16, 95)`. -/
def overlay_end : List ℤ := [55, 16, 95]

/-- `PALETTE["panel"] = (22, 33, 66, 220)`. -/
def panel : List ℤ := [22, 33, 66, 220]

/-- `PALETTE["cyan"] = (94, 234, 212)`. -/
def cyan : List ℤ := [94, 234, 212]

/-- `PALETTE["magenta"] = (244, 114, 182)`. -/
def magenta : List ℤ := [244, 114, 182]

/-- `PALETTE["amber"] = (252, 211, 77)`. -/
def amber : List ℤ := [252, 211, 77]

/-- `PALETTE["indigo"] = (129, 140, 248)`. -/
def indigo : List ℤ := [129, 140, 248]

/-- `lerp_color(color_a, color_b, t)` from the source:
`tuple(int(a + (b - a) * t) for a, b in zip(color_a, color_b))`. -/
def lerp_color (color_a color_b : List ℤ) (t : ℚ) : List ℤ :=
  (color_a.zip color_b).map (fun ab => pyint ((ab.1 : ℚ) + ((ab.2 : ℚ) - (ab.1 : ℚ)) * t))

/-- An 8-bit RGBA pixel value (channels held as integers). -/
structure Px where
  red : ℤ
  green : ℤ
  blue : ℤ
  alpha : ℤ
deriving DecidableEq

/-- View an RGB color tuple (a 3-element channel list) together with an alpha
value as an RGBA pixel, e.g. Python's `(*color, alpha)`. -/
def pxOfColor (c : List ℤ) (a : ℤ) : Px :=
  ⟨c.getD 0 0, c.getD 1 0, c.getD 2 0, a⟩

/-- View an RGBA color tuple (a 4-element channel list) as an RGBA pixel. -/
def pxOfColor4 (c : List ℤ) : Px :=
  ⟨c.getD 0 0, c.getD 1 0, c.getD 2 0, c.getD 3 255⟩

/-- A full-canvas image: dimensions plus a pixel map. -/
structure Img where
  width : ℕ
  height : ℕ
  pix : ℕ → ℕ → Px

/-- Modelled from the spec: the state of the pseudo-random generator (Python's
`random` module, which is external to the repository).  The spec requires only
a deterministic generator whose single shared stream is consumed sequentially,
so it is modelled as a 64-bit linear congruential generator. -/
structure RngState where
  cur : ℕ
deriving DecidableEq

/-- Modelled from the spec: one step of the deterministic pseudo-random
stream (a 64-bit linear congruential generator). -/
def rngStep (s : ℕ) : ℕ :=
  (6364136223846793005 * s + 1442695040888963407) % (2 ^ 64)

/-- Modelled from the spec: `random.seed(n)` fixes the generator state as a
function of `n` alone. -/
def RngState.seed (n : ℕ) : RngState := ⟨rngStep n⟩

/-- Modelled from the spec: `random.randint(lo, hi)` draws an integer uniform
on the inclusive range `[lo, hi]`, advancing the shared stream. -/
def randint (lo hi : ℤ) (st : RngState) : ℤ × RngState :=
  let s := rngStep st.cur
  (lo + (s : ℤ) % (hi - lo + 1), ⟨s⟩)

/-- Modelled from the spec: `random.choice` on a sequence of length `n` draws
a uniform index below `n`, advancing the shared stream. -/
def choiceIdx (n : ℕ) (st : RngState) : ℕ × RngState :=
  let s := rngStep st.cur
  (s % n, ⟨s⟩)

/-- One particle as drawn by `add_particles`: center, radius, alpha and the
chosen base color. -/
structure Particle where
  px : ℤ
  py : ℤ
  pr : ℤ
  pa : ℤ
  pcolor : List ℤ
deriving DecidableEq

/-- The candidate particle colors from the source:
`[(*PALETTE["cyan"], 0), (*PALETTE["magenta"], 0), (180, 200, 255, 0)]`. -/
def particleOptions : List (List ℤ) :=
  [cyan ++ [0], magenta ++ [0], [180, 200, 255, 0]]

/-- One observable use of the shared pseudo-random stream. -/
inductive RngEvent where
  | seeded (n : ℕ)
  | drewInt (lo hi : ℤ)
  | chose (n : ℕ)
deriving DecidableEq

/-- One iteration of the particle loop in `add_particles`: the stream is
consumed in the order x, y, r, alpha, color-choice. -/
def genParticle (st : RngState) : Particle × RngState × List RngEvent :=
  let xr := randint 0 (WIDTH : ℤ) st
  let yr := randint 0 (HEIGHT : ℤ) xr.2
  let rr := randint 2 5 yr.2
  let ar := randint 90 160 rr.2
  let cr := choiceIdx particleOptions.length ar.2
  (⟨xr.1, yr.1, rr.1, ar.1, particleOptions.getD cr.1 []⟩, cr.2,
   [RngEvent.drewInt 0 (WIDTH : ℤ), RngEvent.drewInt 0 (HEIGHT : ℤ),
    RngEvent.drewInt 2 5, RngEvent.drewInt 90 160,
    RngEvent.chose particleOptions.length])

/-- The particle loop `for _ in range(n)`, threading the generator state and
recording the stream usage. -/
def genParticles : ℕ → RngState → List Particle × RngState × List RngEvent
  | 0, st => ([], st, [])
  | Nat.succ n, st =>
    let pe := genParticle st
    let rest := genParticles n pe.2.1
    (pe.1 :: rest.1, rest.2.1, pe.2.2 ++ rest.2.2)

/-- The particle generation of `add_particles`: `random.seed(42)` immediately
followed by the 140-iteration particle loop. -/
def particleRun : List Particle × RngState × List RngEvent :=
  let g := genParticles 140 (RngState.seed 42)
  (g.1, g.2.1, RngEvent.seeded 42 :: g.2.2)

/-- An axis-aligned bounding box `[x0, y0, x1, y1]` with rational (Python
float) coordinates. -/
structure Box where
  x0 : ℚ
  y0 : ℚ
  x1 : ℚ
  y1 : ℚ
deriving DecidableEq

/-- One `ImageDraw` primitive issued by the script (an ellipse, a rounded
rectangle, or a polyline), with its geometry and colors. -/
inductive DrawCmd where
  | ellipseCmd (bbox : Box) (fill : Px)
  | roundedRectCmd (bbox : Box) (radius : ℚ) (fill : Option Px)
      (outline : Option Px) (lineWidth : ℚ)
  | lineCmd (pts : List (ℚ × ℚ)) (fill : Px) (lineWidth : ℚ) (curveJoint : Bool)
deriving DecidableEq

/-- Modelled from the spec: the external library primitives (PIL's rasterizer
and Gaussian blur), which are outside the repository.  `cov` gives, for a draw
command, the color it writes at a pixel (none where the command does not
touch the pixel); `blurPix`/`blurMask` are the Gaussian blurs of a given
radius on pixel maps and single-channel masks; `sinq`/`cosq` are the float
sine and cosine; `maskEllipse` is the rasterizer's ellipse coverage test used
when filling a single-channel mask.  All are arbitrary but fixed deterministic
functions operating pointwise on full-canvas buffers, so no dimension ever
changes. -/
structure Ops where
  sinq : ℚ → ℚ
  cosq : ℚ → ℚ
  blurPix : ℚ → (ℕ → ℕ → Px) → (ℕ → ℕ → Px)
  blurMask : ℚ → (ℕ → ℕ → ℤ) → (ℕ → ℕ → ℤ)
  cov : DrawCmd → ℕ → ℕ → Option Px
  maskEllipse : Box → ℕ → ℕ → Bool

/-- Drawing one primitive onto a layer: pixels the command covers are
overwritten with the command's color, all others keep their value (PIL's
`ImageDraw` writes raw RGBA values into the layer, last write wins). -/
def applyCmd (ops : Ops) (cmd : DrawCmd) (f : ℕ → ℕ → Px) : ℕ → ℕ → Px :=
  fun x y =>
    match ops.cov cmd x y with
    | some c => c
    | none => f x y

/-- Drawing a list of primitives in order onto a layer. -/
def applyCmds (ops : Ops) (cmds : List DrawCmd) (f : ℕ → ℕ → Px) : ℕ → ℕ → Px :=
  cmds.foldl (fun g c => applyCmd ops c g) f

/-- The fully transparent layer `Image.new("RGBA", (WIDTH, HEIGHT), (0, 0, 0, 0))`. -/
def clearLayer : ℕ → ℕ → Px := fun _ _ => ⟨0, 0, 0, 0⟩

/-- Python `range(0, stop, step)` for a positive step. -/
def pyRangeUp (stop step : ℕ) : List ℕ :=
  (List.range ((stop + step - 1) / step)).map (fun k => k * step)

/-- Python `range(start, stop, -step)` for a positive step: descending values
`start, start - step, ...` while they stay strictly above `stop`. -/
def pyRangeDown (start stop step : ℤ) : List ℤ :=
  (List.range ((start - stop + step - 1) / step).toNat).map
    (fun (k : ℕ) => start - step * (k : ℤ))

/-- Alpha-over compositing of one RGBA pixel over another, as
`Image.alpha_composite` is specified: `out = under*(1-a) + over*a` per
channel with `a = over.alpha/255`, and the same rule for the result alpha
(so an opaque under pixel stays opaque).  Modelled from the spec: the PIL
compositor itself is library code outside the repository. -/
def overPx (under over : Px) : Px :=
  let a : ℚ := (over.alpha : ℚ) / 255
  ⟨pyint ((under.red : ℚ) * (1 - a) + (over.red : ℚ) * a),
   pyint ((under.green : ℚ) * (1 - a) + (over.green : ℚ) * a),
   pyint ((under.blue : ℚ) * (1 - a) + (over.blue : ℚ) * a),
   pyint ((under.alpha : ℚ) * (1 - a) + 255 * a)⟩

/-- `Image.alpha_composite(under, over)`: pointwise alpha-over on a canvas of
the under image's dimensions. -/
def alpha_composite (under over : Img) : Img :=
  ⟨under.width, under.height, fun x y => overPx (under.pix x y) (over.pix x y)⟩

/-- `paint_background()`: an opaque base whose row `y` is uniformly
`lerp_color(navy_top, navy_bottom, y/(HEIGHT-1))`, alpha-composited with a
column-uniform overlay colored `lerp_color(overlay_start, overlay_end, x/(WIDTH-1))`
whose alpha is the tent function `int(90 * (1 - abs(0.5 - t) * 2))`. -/
def paint_background : Img :=
  let base : Img :=
    ⟨WIDTH, HEIGHT, fun _ y =>
      pxOfColor (lerp_color navy_top navy_bottom ((y : ℚ) / ((HEIGHT : ℚ) - 1))) 255⟩
  let overlay : Img :=
    ⟨WIDTH, HEIGHT, fun x _ =>
      pxOfColor (lerp_color overlay_start overlay_end ((x : ℚ) / ((WIDTH : ℚ) - 1)))
        (pyint (90 * (1 - |(0.5 : ℚ) - (x : ℚ) / ((WIDTH : ℚ) - 1)| * 2)))⟩
  alpha_composite base overlay

/-- `center = (int(WIDTH * 0.62), int(HEIGHT * 0.38))` in `add_highlights`. -/
def hiCenter : ℤ × ℤ := (pyint ((WIDTH : ℚ) * 0.62), pyint ((HEIGHT : ℚ) * 0.38))

/-- `max_radius = int(WIDTH * 0.75)` in `add_highlights`. -/
def maxRadius : ℤ := pyint ((WIDTH : ℚ) * 0.75)

/-- `range(max_radius, 0, -12)`: the radii of the concentric highlight circles. -/
def hiRadii : List ℤ := pyRangeDown maxRadius 0 12

/-- The fill intensity `int(255 * (1 - radius / max_radius) ** 2)` of the
highlight circle of a given radius. -/
def hiAlpha (radius : ℤ) : ℤ :=
  pyint (255 * (1 - (radius : ℚ) / (maxRadius : ℚ)) ^ 2)

/-- Modelled from the spec: PIL's filled-ellipse rasterization is library
code; a filled circle of radius `r` centered at `c` is modelled as covering
exactly the pixels at euclidean distance at most `r` from `c`. -/
def inDisk (c : ℤ × ℤ) (r : ℤ) (x y : ℕ) : Bool :=
  decide (((x : ℤ) - c.1) ^ 2 + ((y : ℤ) - c.2) ^ 2 ≤ r ^ 2)

/-- The `draw.ellipse(..., fill=alpha)` loop of `add_highlights` on the
single-channel mask: each circle overwrites the pixels it covers with its
intensity, in list order (last drawn wins). -/
def drawDisks (c : ℤ × ℤ) : List ℤ → (ℕ → ℕ → ℤ) → (ℕ → ℕ → ℤ)
  | [], m => m
  | r :: rest, m =>
    drawDisks c rest (fun x y => if inDisk c r x y then hiAlpha r else m x y)

/-- The highlight mask of `add_highlights` before blurring: the concentric
circles drawn onto an initially black `"L"` mask. -/
def highlightMask : ℕ → ℕ → ℤ :=
  drawDisks hiCenter hiRadii (fun _ _ => 0)

/-- `add_highlights(canvas)`: the highlight mask is Gaussian-blurred at
radius 180 and becomes the alpha channel of a uniform light-blue layer,
alpha-composited onto the canvas. -/
def add_highlights (ops : Ops) (canvas : Img) : Img :=
  let soft := ops.blurMask 180 highlightMask
  alpha_composite canvas ⟨WIDTH, HEIGHT, fun x y => ⟨110, 170, 255, soft x y⟩⟩

/-- The grid primitives of `add_grid`: 1px vertical lines every 120px and
1px horizontal lines every 120px, color `(255, 255, 255, 28)`. -/
def gridCmds : List DrawCmd :=
  ((pyRangeUp WIDTH 120).map fun (x : ℕ) =>
    DrawCmd.lineCmd [((x : ℚ), 0), ((x : ℚ), (HEIGHT : ℚ))] ⟨255, 255, 255, 28⟩ 1 false)
  ++ ((pyRangeUp HEIGHT 120).map fun (y : ℕ) =>
    DrawCmd.lineCmd [(0, (y : ℚ)), ((WIDTH : ℚ), (y : ℚ))] ⟨255, 255, 255, 28⟩ 1 false)

/-- `add_grid(canvas)`: the grid lines on a transparent layer, blurred at
radius 1.2 and alpha-composited onto the canvas. -/
def add_grid (ops : Ops) (canvas : Img) : Img :=
  alpha_composite canvas
    ⟨WIDTH, HEIGHT, ops.blurPix 1.2 (applyCmds ops gridCmds clearLayer)⟩

/-- `main_panel = [WIDTH * 0.2, HEIGHT * 0.18, WIDTH * 0.68, HEIGHT * 0.74]`. -/
def mainPanelBox : Box :=
  ⟨(WIDTH : ℚ) * 0.2, (HEIGHT : ℚ) * 0.18, (WIDTH : ℚ) * 0.68, (HEIGHT : ℚ) * 0.74⟩

/-- The main rounded panel of `add_panels`. -/
def mainPanelCmd : DrawCmd :=
  DrawCmd.roundedRectCmd mainPanelBox 48 (some (pxOfColor4 panel))
    (some ⟨146, 161, 255, 140⟩) 4

/-- The three traffic-light dots of `add_panels` (radius 14, colors cyan,
magenta, amber at alpha 220). -/
def trafficDotCmds : List DrawCmd :=
  ([cyan, magenta, amber].enum).map fun ic =>
    match ic with
    | (idx, color) =>
      DrawCmd.ellipseCmd
        ⟨mainPanelBox.x0 + 48 + (idx : ℚ) * 46 - 14, mainPanelBox.y0 + 46 - 14,
         mainPanelBox.x0 + 48 + (idx : ℚ) * 46 + 14, mainPanelBox.y0 + 46 + 14⟩
        (pxOfColor color 220)

/-- `nav_x = main_panel[0] + 48`. -/
def navX : ℚ := mainPanelBox.x0 + 48

/-- `nav_top = main_panel[1] + 96`. -/
def navTop : ℚ := mainPanelBox.y0 + 96

/-- The six navigation-list bars of `add_panels`, with linearly fading alpha
`int(160 - i * 14)` and indigo fill. -/
def navBarCmds : List DrawCmd :=
  (List.range 6).map fun (i : ℕ) =>
    DrawCmd.roundedRectCmd
      ⟨navX, navTop + (i : ℚ) * (48 + 18), navX + 220, navTop + (i : ℚ) * (48 + 18) + 48⟩
      14 (some (pxOfColor indigo (160 - (i : ℤ) * 14))) none 0

/-- `chart_left = nav_x + 260`. -/
def chartLeft : ℚ := navX + 260

/-- `chart_top = main_panel[1] + 110`. -/
def chartTop : ℚ := mainPanelBox.y0 + 110

/-- `chart_right = main_panel[2] - 64`. -/
def chartRight : ℚ := mainPanelBox.x1 - 64

/-- `chart_bottom = main_panel[3] - 90`. -/
def chartBottom : ℚ := mainPanelBox.y1 - 90

/-- `bar_width = 42`. -/
def barWidth : ℚ := 42

/-- `accents = [cyan, magenta, amber, indigo]` for the bar chart. -/
def accents : List (List ℤ) := [cyan, magenta, amber, indigo]

/-- One bar of the 3x7 bar chart in `add_panels`: sinusoidal height
`(sin((row + col / 2) * 0.7) * 0.3 + 0.6) * 120` above the per-row baseline
`chart_top + row * 160`, fill cycling through the accent palette by
`(row + col) % 4`, drawn as a rounded rectangle of corner radius 12. -/
def chartBar (sinq : ℚ → ℚ) (row col : ℕ) : DrawCmd :=
  let value := sinq (((row : ℚ) + (col : ℚ) / 2) * 0.7) * 0.3 + 0.6
  let heightValue := value * 120
  let x0 := chartLeft + (col : ℚ) * (barWidth + 22)
  let baseline := chartTop + (row : ℚ) * 160
  DrawCmd.roundedRectCmd ⟨x0, baseline - heightValue, x0 + barWidth, baseline⟩ 12
    (some (pxOfColor (accents.getD ((row + col) % accents.length) []) 220)) none 0

/-- The full 3-row x 7-column bar chart of `add_panels`, in loop order. -/
def chartBars (sinq : ℚ → ℚ) : List DrawCmd :=
  (List.range 3).flatMap fun row => (List.range 7).map fun col => chartBar sinq row col

/-- The ten sparkline points of `add_panels`: x evenly spaced across the
chart span, y given by `chart_bottom - 120 - cos(idx * 0.6) * 70`. -/
def sparkPoints (cosq : ℚ → ℚ) : List (ℚ × ℚ) :=
  (List.range 10).map fun (idx : ℕ) =>
    (chartLeft + (idx : ℚ) * ((chartRight - chartLeft) / 9),
     chartBottom - 120 - cosq ((idx : ℚ) * 0.6) * 70)

/-- The sparkline of `add_panels`: one joined polyline plus a marker dot at
every point. -/
def sparkCmds (cosq : ℚ → ℚ) : List DrawCmd :=
  DrawCmd.lineCmd (sparkPoints cosq) (pxOfColor cyan 200) 6 true ::
  (sparkPoints cosq).map fun p =>
    DrawCmd.ellipseCmd ⟨p.1 - 9, p.2 - 9, p.1 + 9, p.2 + 9⟩ ⟨15, 255, 204, 230⟩

/-- The three floating accent cards of `add_panels` (bounds and accent color). -/
def floatCards : List (Box × List ℤ) :=
  [(⟨(WIDTH : ℚ) * 0.74, (HEIGHT : ℚ) * 0.24, (WIDTH : ℚ) * 0.92, (HEIGHT : ℚ) * 0.42⟩, cyan),
   (⟨(WIDTH : ℚ) * 0.74, (HEIGHT : ℚ) * 0.46, (WIDTH : ℚ) * 0.94, (HEIGHT : ℚ) * 0.62⟩, magenta),
   (⟨(WIDTH : ℚ) * 0.70, (HEIGHT : ℚ) * 0.66, (WIDTH : ℚ) * 0.92, (HEIGHT : ℚ) * 0.82⟩, amber)]

/-- The draw commands for the floating cards: rounded background with colored
outline, ring glyph (colored disk with a dark inner disk), and two label bars. -/
def floatCardCmds : List DrawCmd :=
  floatCards.flatMap fun bc =>
    let b := bc.1
    let color := bc.2
    let cx := b.x0 + 64
    let cy := (b.y0 + b.y1) / 2
    [DrawCmd.roundedRectCmd b 36 (some ⟨18, 28, 58, 200⟩) (some (pxOfColor color 180)) 4,
     DrawCmd.ellipseCmd ⟨cx - 28, cy - 28, cx + 28, cy + 28⟩ (pxOfColor color 210),
     DrawCmd.ellipseCmd ⟨cx - 16, cy - 16, cx + 16, cy + 16⟩ ⟨15, 18, 40, 255⟩,
     DrawCmd.lineCmd [(cx + 48, cy - 18), (b.x1 - 36, cy - 18)] (pxOfColor color 160) 10 false,
     DrawCmd.lineCmd [(cx + 48, cy + 18), (b.x1 - 48, cy + 18)] ⟨220, 225, 255, 140⟩ 8 false]

/-- All draw commands of `add_panels`, in source order. -/
def panelCmds (sinq cosq : ℚ → ℚ) : List DrawCmd :=
  mainPanelCmd :: (trafficDotCmds ++ navBarCmds ++ chartBars sinq
    ++ sparkCmds cosq ++ floatCardCmds)

/-- `add_panels(canvas)`: all panel primitives drawn on one transparent
layer, alpha-composited onto the canvas once at the end. -/
def add_panels (ops : Ops) (canvas : Img) : Img :=
  alpha_composite canvas
    ⟨WIDTH, HEIGHT, applyCmds ops (panelCmds ops.sinq ops.cosq) clearLayer⟩

/-- The ellipse commands of the particle loop:
`draw.ellipse([x-r, y-r, x+r, y+r], fill=base_color[:3] + (alpha,))`. -/
def particleCmds (ps : List Particle) : List DrawCmd :=
  ps.map fun p =>
    DrawCmd.ellipseCmd
      ⟨((p.px - p.pr : ℤ) : ℚ), ((p.py - p.pr : ℤ) : ℚ),
       ((p.px + p.pr : ℤ) : ℚ), ((p.py + p.pr : ℤ) : ℚ)⟩
      ⟨p.pcolor.getD 0 0, p.pcolor.getD 1 0, p.pcolor.getD 2 0, p.pa⟩

/-- `add_particles(canvas)`: `random.seed(42)` then 140 particles drawn on a
transparent layer, blurred at radius 0.6 and alpha-composited onto the
canvas.  The incoming generator state `rng` is overwritten by the seed call,
so it never influences the output. -/
def add_particles (ops : Ops) (canvas : Img) (_rng : RngState) : Img :=
  alpha_composite canvas
    ⟨WIDTH, HEIGHT, ops.blurPix 0.6 (applyCmds ops (particleCmds particleRun.1) clearLayer)⟩

/-- The ellipse bounds of the focus mask in `add_vignette`. -/
def focusBox : Box :=
  ⟨(WIDTH : ℚ) * 0.2 - 160, (HEIGHT : ℚ) * 0.18 - 120,
   (WIDTH : ℚ) * 0.68 + 160, (HEIGHT : ℚ) * 0.74 + 180⟩

/-- `add_vignette(canvas)`: a dark layer whose alpha is the blurred
full-canvas mask, then a white layer whose alpha is the blurred focus-ellipse
mask, composited in that order. -/
def add_vignette (ops : Ops) (canvas : Img) : Img :=
  let vignette := ops.blurMask 180 (fun _ _ => 255)
  let focus := ops.blurMask 120 (fun x y => if ops.maskEllipse focusBox x y then 220 else 0)
  alpha_composite
    (alpha_composite canvas ⟨WIDTH, HEIGHT, fun x y => ⟨5, 10, 30, vignette x y⟩⟩)
    ⟨WIDTH, HEIGHT, fun x y => ⟨255, 255, 255, focus x y⟩⟩

/-- An opaque RGB image, as produced by `convert("RGB")`: no alpha channel. -/
structure ImgRGB where
  width : ℕ
  height : ℕ
  pix : ℕ → ℕ → ℤ × ℤ × ℤ

/-- `canvas.convert("RGB")`: the alpha channel is discarded. -/
def convertRGB (img : Img) : ImgRGB :=
  ⟨img.width, img.height, fun x y =>
    ((img.pix x y).red, (img.pix x y).green, (img.pix x y).blue)⟩

/-- The full pipeline of `render(destination)` up to the pixel buffer that is
handed to the encoder: the six stages in source order followed by the RGB
flatten.  `rng` is the generator state at entry (the run's ambient `random`
state); the destination path plays no part in the pixels. -/
def renderRGBA (ops : Ops) (rng : RngState) : Img :=
  add_vignette ops
    (add_particles ops
      (add_panels ops (add_grid ops (add_highlights ops paint_background))) rng)

/-- The final flattened RGB buffer of `render`. -/
def render (ops : Ops) (rng : RngState) : ImgRGB :=
  convertRGB (renderRGBA ops rng)

/-- Modelled from the spec: a `pathlib` path (external to the repository),
reduced to what `main` inspects: whether it is absolute, and its components. -/
structure PyPath where
  absolute : Bool
  comps : List String
deriving DecidableEq

/-- Whether the first component list leads the second (shared leading
components). -/
def pathLeads : List String → List String → Bool
  | [], _ => true
  | _ :: _, [] => false
  | a :: as, b :: bs => a == b && pathLeads as bs

/-- Modelled from the spec: `PurePath.relative_to(base)` returns the path
relative to `base` when `base`'s components lead the path's; otherwise it
raises `ValueError` (here: `none`). -/
def relative_to (p base : PyPath) : Option PyPath :=
  if p.absolute = base.absolute && pathLeads base.comps p.comps then
    some ⟨false, p.comps.drop base.comps.length⟩
  else none

/-- The externally observable outcome of one `main()` run in which `render`
and the final file write have already succeeded: whether the file was
written, the path printed by the completion message (none if the message
raised), and the process exit status. -/
structure RunTrace where
  wroteFile : Bool
  printedPath : Option PyPath
  exitCode : ℕ
deriving DecidableEq

/-- `main()` after a successful `render(args.output)` (the file is written
before the completion message).  The message prints
`args.output.relative_to(Path.cwd()) if args.output.is_absolute() else args.output`;
an exception escaping `main` terminates the Python process with a non-zero
exit status, a normal return with zero. -/
def pyMain (output cwd : PyPath) : RunTrace :=
  if output.absolute then
    match relative_to output cwd with
    | some rel => ⟨true, some rel, 0⟩
    | none => ⟨true, none, 1⟩
  else ⟨true, some output, 0⟩

/-- A trivial instantiation of the library primitives, used to evaluate the
pipeline at concrete inputs. -/
def idOps : Ops :=
  ⟨fun _ => 0, fun _ => 0, fun _ f => f, fun _ f => f, fun _ _ _ => none,
   fun _ _ _ => false⟩

lemma pyint_intCast (n : ℤ) : pyint (n : ℚ) = n := by
  unfold pyint
  split
  · exact Int.floor_intCast n
  · rw [show -(n : ℚ) = ((-n : ℤ) : ℚ) by push_cast; ring, Int.floor_intCast]
    omega

lemma pyint_mono {q r : ℚ} (h : q ≤ r) : pyint q ≤ pyint r := by
  unfold pyint
  by_cases hq : 0 ≤ q
  · rw [if_pos hq, if_pos (le_trans hq h)]
    exact Int.floor_le_floor h
  · rw [if_neg hq]
    by_cases hr : 0 ≤ r
    · rw [if_pos hr]
      have h1 : 0 ≤ ⌊r⌋ := Int.floor_nonneg.mpr hr
      have h2 : 0 ≤ ⌊-q⌋ := Int.floor_nonneg.mpr (by linarith)
      omega
    · rw [if_neg hr]
      have := Int.floor_le_floor (neg_le_neg h)
      omega

lemma lerp_color_length (a b : List ℤ) (t : ℚ) :
    (lerp_color a b t).length = min a.length b.length := by
  simp [lerp_color]

lemma lerp_color_get (a b : List ℤ) (t : ℚ) :
    ∀ (i : ℕ) (hi : i < a.length) (hi2 : i < b.length)
      (h : i < (lerp_color a b t).length),
      (lerp_color a b t).get ⟨i, h⟩ =
        pyint ((a.get ⟨i, hi⟩ : ℚ) + ((b.get ⟨i, hi2⟩ : ℚ) - (a.get ⟨i, hi⟩ : ℚ)) * t) := by
  induction a generalizing b with
  | nil => intro i hi _ _; exact absurd hi (by simp)
  | cons a0 as ih =>
    cases b with
    | nil => intro i _ hi2 _; exact absurd hi2 (by simp)
    | cons b0 bs =>
      intro i hi hi2 h
      cases i with
      | zero => rfl
      | succ n =>
        exact ih bs n (by simpa using hi) (by simpa using hi2)
          (by rw [lerp_color_length] at h ⊢; simp at h ⊢; omega)

lemma lerp_color_zero (a b : List ℤ) (hlen : a.length = b.length) :
    lerp_color a b 0 = a := by
  apply List.ext_get
  · simp [lerp_color_length, hlen]
  · intro i h1 h2
    have hb : i < b.length := by rw [lerp_color_length] at h1; omega
    rw [lerp_color_get a b 0 i h2 hb h1]
    simp [pyint_intCast]

lemma lerp_color_one (a b : List ℤ) (hlen : a.length = b.length) :
    lerp_color a b 1 = b := by
  apply List.ext_get
  · simp [lerp_color_length, hlen]
  · intro i h1 h2
    have ha : i < a.length := by rw [lerp_color_length] at h1; omega
    rw [lerp_color_get a b 1 i ha h2 h1]
    simp [pyint_intCast]

/-- C2: for colors with the same number of integer channels and `0 ≤ t ≤ 1`,
`lerp_color(a, b, t)` returns, per channel, the integer-truncated linear
interpolation `int(a_i + (b_i - a_i) * t)`. -/
theorem lerp_color_truncates (a b : List ℤ) (t : ℚ) (hlen : a.length = b.length)
    (ht0 : 0 ≤ t) (ht1 : t ≤ 1) (i : ℕ) (hi : i < a.length)
    (h : i < (lerp_color a b t).length) :
    (lerp_color a b t).get ⟨i, h⟩ =
      pyint ((a.get ⟨i, hi⟩ : ℚ) + ((b.get ⟨i, hlen ▸ hi⟩ : ℚ) - (a.get ⟨i, hi⟩ : ℚ)) * t) :=
  lerp_color_get a b t i hi (hlen ▸ hi) h

/-- Witness for C2 at `a = (0, 100)`, `b = (255, 50)`, `t = 1/2`: channel 0 is
`int(0 + 255 * 0.5) = 127` (truncated, not rounded to 128). -/
theorem lerp_color_truncates_witness :
    (lerp_color [0, 100] [255, 50] (1 / 2)).get ⟨0, by decide⟩ = 127 := by
  rw [lerp_color_truncates [0, 100] [255, 50] (1 / 2) rfl (by norm_num) (by norm_num)
    0 (by decide) (by decide)]
  show pyint (((0 : ℤ) : ℚ) + (((255 : ℤ) : ℚ) - ((0 : ℤ) : ℚ)) * (1 / 2)) = 127
  norm_num [pyint]

/-- C3: for same-length endpoint colors, `lerp_color` reproduces the
endpoints exactly at `t = 0` and `t = 1`, and on `[0, 1]` each channel is
non-decreasing in `t` when `b_i ≥ a_i` and non-increasing when `b_i ≤ a_i`. -/
theorem lerp_color_monotone_endpoints (a b : List ℤ) (hlen : a.length = b.length) :
    lerp_color a b 0 = a ∧ lerp_color a b 1 = b ∧
    ∀ (t u : ℚ), 0 ≤ t → t ≤ u → u ≤ 1 →
      ∀ (i : ℕ) (hi : i < a.length) (hi2 : i < b.length)
        (h1 : i < (lerp_color a b t).length) (h2 : i < (lerp_color a b u).length),
        (a.get ⟨i, hi⟩ ≤ b.get ⟨i, hi2⟩ →
          (lerp_color a b t).get ⟨i, h1⟩ ≤ (lerp_color a b u).get ⟨i, h2⟩) ∧
        (b.get ⟨i, hi2⟩ ≤ a.get ⟨i, hi⟩ →
          (lerp_color a b u).get ⟨i, h2⟩ ≤ (lerp_color a b t).get ⟨i, h1⟩) := by
  refine ⟨lerp_color_zero a b hlen, lerp_color_one a b hlen, ?_⟩
  intro t u ht htu hu i hi hi2 h1 h2
  rw [lerp_color_get a b t i hi hi2 h1, lerp_color_get a b u i hi hi2 h2]
  constructor
  · intro hab
    apply pyint_mono
    have hd : (0 : ℚ) ≤ (b.get ⟨i, hi2⟩ : ℚ) - (a.get ⟨i, hi⟩ : ℚ) := by
      have : ((a.get ⟨i, hi⟩ : ℤ) : ℚ) ≤ ((b.get ⟨i, hi2⟩ : ℤ) : ℚ) := by exact_mod_cast hab
      linarith
    have := mul_le_mul_of_nonneg_left htu hd
    linarith
  · intro hba
    apply pyint_mono
    have hd : (b.get ⟨i, hi2⟩ : ℚ) - (a.get ⟨i, hi⟩ : ℚ) ≤ 0 := by
      have : ((b.get ⟨i, hi2⟩ : ℤ) : ℚ) ≤ ((a.get ⟨i, hi⟩ : ℤ) : ℚ) := by exact_mod_cast hba
      linarith
    have := mul_le_mul_of_nonpos_left htu hd
    linarith

/-- Witness for C3 at concrete endpoint colors: both endpoints are
reproduced exactly. -/
theorem lerp_color_monotone_endpoints_witness :
    lerp_color [0, 10, 255] [255, 10, 0] 0 = [0, 10, 255] ∧
    lerp_color [0, 10, 255] [255, 10, 0] 1 = [255, 10, 0] :=
  ⟨(lerp_color_monotone_endpoints [0, 10, 255] [255, 10, 0] rfl).1,
   (lerp_color_monotone_endpoints [0, 10, 255] [255, 10, 0] rfl).2.1⟩

/-- C10: on colors with different channel counts `lerp_color` does not fail:
it returns a tuple of the shorter length (zip truncation), each shared
channel being the usual truncated interpolation, the longer color's trailing
channels being dropped. -/
theorem lerp_color_zip_shorter (a b : List ℤ) (t : ℚ) :
    (lerp_color a b t).length = min a.length b.length ∧
    ∀ (i : ℕ) (hi : i < a.length) (hi2 : i < b.length)
      (h : i < (lerp_color a b t).length),
      (lerp_color a b t).get ⟨i, h⟩ =
        pyint ((a.get ⟨i, hi⟩ : ℚ) + ((b.get ⟨i, hi2⟩ : ℚ) - (a.get ⟨i, hi⟩ : ℚ)) * t) :=
  ⟨lerp_color_length a b t, fun i hi hi2 h => lerp_color_get a b t i hi hi2 h⟩

/-- Witness for C10: an RGB triple against an RGBA quadruple yields a
3-channel result whose last channel interpolates the shared channels; the
alpha channel 40 of the longer color is dropped. -/
theorem lerp_color_zip_shorter_witness :
    (lerp_color [1, 2, 3] [10, 20, 30, 40] 1).length = min 3 4 ∧
    (lerp_color [1, 2, 3] [10, 20, 30, 40] 1).get ⟨2, by decide⟩ = 30 := by
  refine ⟨(lerp_color_zip_shorter [1, 2, 3] [10, 20, 30, 40] 1).1, ?_⟩
  rw [(lerp_color_zip_shorter [1, 2, 3] [10, 20, 30, 40] 1).2 2 (by decide) (by decide)
    (by decide)]
  show pyint (((3 : ℤ) : ℚ) + (((30 : ℤ) : ℚ) - ((3 : ℤ) : ℚ)) * 1) = 30
  norm_num [pyint]

lemma randint_bounds {lo hi : ℤ} (h : lo ≤ hi) (st : RngState) :
    lo ≤ (randint lo hi st).1 ∧ (randint lo hi st).1 ≤ hi := by
  unfold randint
  have hne : hi - lo + 1 ≠ 0 := by omega
  have h1 : 0 ≤ ((rngStep st.cur : ℤ)) % (hi - lo + 1) := Int.emod_nonneg _ hne
  have h2 : ((rngStep st.cur : ℤ)) % (hi - lo + 1) < hi - lo + 1 :=
    Int.emod_lt_of_pos _ (by omega)
  constructor <;> simp <;> omega

lemma genParticle_trace (st : RngState) :
    (genParticle st).2.2 =
      [RngEvent.drewInt 0 (WIDTH : ℤ), RngEvent.drewInt 0 (HEIGHT : ℤ),
       RngEvent.drewInt 2 5, RngEvent.drewInt 90 160, RngEvent.chose 3] := rfl

lemma genParticle_fields (st : RngState) :
    (genParticle st).1.px = (randint 0 (WIDTH : ℤ) st).1 ∧
    (genParticle st).1.py = (randint 0 (HEIGHT : ℤ) (randint 0 (WIDTH : ℤ) st).2).1 ∧
    (genParticle st).1.pr =
      (randint 2 5 (randint 0 (HEIGHT : ℤ) (randint 0 (WIDTH : ℤ) st).2).2).1 ∧
    (genParticle st).1.pa =
      (randint 90 160
        (randint 2 5 (randint 0 (HEIGHT : ℤ) (randint 0 (WIDTH : ℤ) st).2).2).2).1 ∧
    (genParticle st).1.pcolor =
      particleOptions.getD
        ((choiceIdx particleOptions.length
          (randint 90 160
            (randint 2 5 (randint 0 (HEIGHT : ℤ) (randint 0 (WIDTH : ℤ) st).2).2).2).2).1)
        [] := by
  simp only [genParticle]
  exact ⟨trivial, trivial, trivial, trivial, trivial⟩

lemma getD_mem_of_lt {l : List (List ℤ)} {i : ℕ} (h : i < l.length) :
    l.getD i [] ∈ l := by
  rw [List.getD_eq_getElem?_getD, List.getElem?_eq_getElem h]
  exact List.get_mem _ _ h

lemma genParticle_bounds (st : RngState) :
    0 ≤ (genParticle st).1.px ∧ (genParticle st).1.px ≤ (WIDTH : ℤ) ∧
    0 ≤ (genParticle st).1.py ∧ (genParticle st).1.py ≤ (HEIGHT : ℤ) ∧
    2 ≤ (genParticle st).1.pr ∧ (genParticle st).1.pr ≤ 5 ∧
    90 ≤ (genParticle st).1.pa ∧ (genParticle st).1.pa ≤ 160 ∧
    (genParticle st).1.pcolor ∈ particleOptions := by
  obtain ⟨h1, h2, h3, h4, h5⟩ := genParticle_fields st
  rw [h1, h2, h3, h4, h5]
  have hx := randint_bounds (by norm_num [WIDTH] : (0 : ℤ) ≤ (WIDTH : ℤ)) st
  have hy := randint_bounds (by norm_num [HEIGHT] : (0 : ℤ) ≤ (HEIGHT : ℤ))
    (randint 0 (WIDTH : ℤ) st).2
  have hr := randint_bounds (by norm_num : (2 : ℤ) ≤ 5)
    (randint 0 (HEIGHT : ℤ) (randint 0 (WIDTH : ℤ) st).2).2
  have ha := randint_bounds (by norm_num : (90 : ℤ) ≤ 160)
    (randint 2 5 (randint 0 (HEIGHT : ℤ) (randint 0 (WIDTH : ℤ) st).2).2).2
  refine ⟨hx.1, hx.2, hy.1, hy.2, hr.1, hr.2, ha.1, ha.2, getD_mem_of_lt ?_⟩
  exact Nat.mod_lt _ (by norm_num [particleOptions])

lemma genParticles_succ (n : ℕ) (st : RngState) :
    genParticles (n + 1) st =
      ((genParticle st).1 :: (genParticles n (genParticle st).2.1).1,
       (genParticles n (genParticle st).2.1).2.1,
       (genParticle st).2.2 ++ (genParticles n (genParticle st).2.1).2.2) := rfl

lemma genParticles_length (n : ℕ) : ∀ st : RngState, (genParticles n st).1.length = n := by
  induction n with
  | zero => intro st; rfl
  | succ m ih => intro st; rw [genParticles_succ]; simp [ih]

lemma genParticles_trace (n : ℕ) : ∀ st : RngState,
    (genParticles n st).2.2 =
      (List.replicate n [RngEvent.drewInt 0 (WIDTH : ℤ), RngEvent.drewInt 0 (HEIGHT : ℤ),
        RngEvent.drewInt 2 5, RngEvent.drewInt 90 160, RngEvent.chose 3]).flatten := by
  induction n with
  | zero => intro st; rfl
  | succ m ih =>
    intro st
    rw [genParticles_succ, List.replicate_succ, List.flatten_cons, genParticle_trace, ih]

lemma genParticles_mem_bounds (n : ℕ) : ∀ (st : RngState) (p : Particle),
    p ∈ (genParticles n st).1 →
    0 ≤ p.px ∧ p.px ≤ (WIDTH : ℤ) ∧ 0 ≤ p.py ∧ p.py ≤ (HEIGHT : ℤ) ∧
    2 ≤ p.pr ∧ p.pr ≤ 5 ∧ 90 ≤ p.pa ∧ p.pa ≤ 160 ∧ p.pcolor ∈ particleOptions := by
  induction n with
  | zero => intro st p hp; simp [genParticles] at hp
  | succ m ih =>
    intro st p hp
    rw [genParticles_succ] at hp
    rcases List.mem_cons.mp hp with h | h
    · subst h; exact genParticle_bounds st
    · exact ih _ p h

lemma particleRun_parts :
    particleRun = ((genParticles 140 (RngState.seed 42)).1,
      (genParticles 140 (RngState.seed 42)).2.1,
      RngEvent.seeded 42 :: (genParticles 140 (RngState.seed 42)).2.2) := by
  unfold particleRun
  rcases h : genParticles 140 (RngState.seed 42) with ⟨ps, st, es⟩
  simp

/-- C5: in the particle stage the generator is seeded with 42 exactly once,
at the head of the stream usage, followed by exactly 140 iterations each
consuming the shared stream in the order (x, y, r, alpha, color-choice) with
x uniform on [0, WIDTH], y uniform on [0, HEIGHT], r uniform on [2, 5],
alpha uniform on [90, 160] and the color drawn from the 3-element candidate
set; correspondingly every generated particle lies in those ranges. -/
theorem add_particles_rng_discipline :
    particleRun.2.2 =
      RngEvent.seeded 42 ::
        (List.replicate 140 [RngEvent.drewInt 0 (WIDTH : ℤ), RngEvent.drewInt 0 (HEIGHT : ℤ),
          RngEvent.drewInt 2 5, RngEvent.drewInt 90 160, RngEvent.chose 3]).flatten ∧
    particleRun.1.length = 140 ∧
    particleOptions.length = 3 ∧
    ∀ p ∈ particleRun.1,
      0 ≤ p.px ∧ p.px ≤ (WIDTH : ℤ) ∧ 0 ≤ p.py ∧ p.py ≤ (HEIGHT : ℤ) ∧
      2 ≤ p.pr ∧ p.pr ≤ 5 ∧ 90 ≤ p.pa ∧ p.pa ≤ 160 ∧ p.pcolor ∈ particleOptions := by
  refine ⟨?_, ?_, rfl, ?_⟩
  · rw [particleRun_parts]
    simp [genParticles_trace]
  · rw [particleRun_parts]
    simp [genParticles_length]
  · intro p hp
    rw [particleRun_parts] at hp
    exact genParticles_mem_bounds 140 _ p hp

/-- Witness for C5: the first generated particle (which exists, since there
are 140) satisfies the claimed coordinate and radius bounds. -/
theorem add_particles_rng_discipline_witness :
    0 ≤ (particleRun.1.headD ⟨0, 0, 0, 0, []⟩).px ∧
    2 ≤ (particleRun.1.headD ⟨0, 0, 0, 0, []⟩).pr ∧
    (particleRun.1.headD ⟨0, 0, 0, 0, []⟩).pcolor ∈ particleOptions := by
  have h := add_particles_rng_discipline
  have hlen : particleRun.1.length = 140 := h.2.1
  have hmem : particleRun.1.headD ⟨0, 0, 0, 0, []⟩ ∈ particleRun.1 := by
    cases hl : particleRun.1 with
    | nil => rw [hl] at hlen; simp at hlen
    | cons a as => simp [hl]
  have hb := h.2.2.2 _ hmem
  exact ⟨hb.1, hb.2.2.2.2.1, hb.2.2.2.2.2.2.2.2⟩

lemma overPx_alpha255 (u o : Px) (hu : u.alpha = 255) : (overPx u o).alpha = 255 := by
  simp only [overPx, hu]
  rw [show ((255 : ℤ) : ℚ) * (1 - (o.alpha : ℚ) / 255) + 255 * ((o.alpha : ℚ) / 255)
      = ((255 : ℤ) : ℚ) by push_cast; ring]
  exact pyint_intCast 255

lemma alpha_composite_alpha (under over : Img) (x y : ℕ)
    (h : (under.pix x y).alpha = 255) :
    ((alpha_composite under over).pix x y).alpha = 255 :=
  overPx_alpha255 _ _ h

lemma overPx_transparent (u o : Px) (h : o.alpha = 0) : overPx u o = u := by
  cases u with
  | mk r g b a => simp [overPx, h, pyint_intCast]

lemma renderRGBA_alpha (ops : Ops) (rng : RngState) (x y : ℕ) :
    ((renderRGBA ops rng).pix x y).alpha = 255 :=
  alpha_composite_alpha _ _ x y
    (alpha_composite_alpha _ _ x y
      (alpha_composite_alpha _ _ x y
        (alpha_composite_alpha _ _ x y
          (alpha_composite_alpha _ _ x y
            (alpha_composite_alpha _ _ x y
              (alpha_composite_alpha _ _ x y rfl))))))

/-- C1: the pipeline is fully deterministic: with the same fixed constants
and the generator seeded with 42 inside the particle stage, two runs of
`render` from any two ambient generator states produce identical final RGB
pixel buffers, particle placement included. -/
theorem render_deterministic (ops : Ops) (r0 r1 : RngState) :
    render ops r0 = render ops r1 := rfl

/-- Witness for C1: two concrete runs from different ambient generator
states coincide. -/
theorem render_deterministic_witness :
    render idOps (RngState.seed 0) = render idOps (RngState.seed 1) :=
  render_deterministic idOps (RngState.seed 0) (RngState.seed 1)

/-- C4: every stage maps a 1440x960 canvas to a 1440x960 canvas (no stage
resizes), and the flattened output is an alpha-free RGB buffer of exactly
1440x960 whose every pre-flatten pixel is fully opaque, whatever the
destination path (which does not enter the pixel pipeline at all). -/
theorem pipeline_dims_and_opacity (ops : Ops) (rng : RngState) (c : Img)
    (hw : c.width = 1440) (hh : c.height = 960) :
    (paint_background.width = 1440 ∧ paint_background.height = 960) ∧
    ((add_highlights ops c).width = 1440 ∧ (add_highlights ops c).height = 960) ∧
    ((add_grid ops c).width = 1440 ∧ (add_grid ops c).height = 960) ∧
    ((add_panels ops c).width = 1440 ∧ (add_panels ops c).height = 960) ∧
    ((add_particles ops c rng).width = 1440 ∧ (add_particles ops c rng).height = 960) ∧
    ((add_vignette ops c).width = 1440 ∧ (add_vignette ops c).height = 960) ∧
    ((render ops rng).width = 1440 ∧ (render ops rng).height = 960) ∧
    (∀ x y : ℕ, ((renderRGBA ops rng).pix x y).alpha = 255) :=
  ⟨⟨rfl, rfl⟩, ⟨hw, hh⟩, ⟨hw, hh⟩, ⟨hw, hh⟩, ⟨hw, hh⟩, ⟨hw, hh⟩, ⟨rfl, rfl⟩,
   fun x y => renderRGBA_alpha ops rng x y⟩

/-- Witness for C4: concrete dimensions and a concrete opaque output pixel. -/
theorem pipeline_dims_and_opacity_witness :
    ((add_highlights idOps paint_background).width = 1440 ∧
      (add_highlights idOps paint_background).height = 960) ∧
    (render idOps (RngState.seed 0)).width = 1440 ∧
    (render idOps (RngState.seed 0)).height = 960 ∧
    ((renderRGBA idOps (RngState.seed 0)).pix 0 0).alpha = 255 := by
  have h := pipeline_dims_and_opacity idOps (RngState.seed 0) paint_background rfl rfl
  exact ⟨h.2.1, h.2.2.2.2.2.2.1.1, h.2.2.2.2.2.2.1.2, h.2.2.2.2.2.2.2 0 0⟩

/-- C7: in the background stage every pixel (x, y) is the alpha-over
composite of the row-uniform opaque base color
`lerp_color(navy_top, navy_bottom, y/(HEIGHT-1))` under the column-uniform
overlay color `lerp_color(overlay_start, overlay_end, x/(WIDTH-1))` whose
alpha is the tent function `int(90 * (1 - abs(0.5 - x/(WIDTH-1)) * 2))`,
peaking at the horizontal center. -/
theorem paint_background_gradients (x y : ℕ) (hx : x < WIDTH) (hy : y < HEIGHT) :
    paint_background.pix x y =
      overPx
        (pxOfColor (lerp_color navy_top navy_bottom ((y : ℚ) / ((HEIGHT : ℚ) - 1))) 255)
        (pxOfColor (lerp_color overlay_start overlay_end ((x : ℚ) / ((WIDTH : ℚ) - 1)))
          (pyint (90 * (1 - |(0.5 : ℚ) - (x : ℚ) / ((WIDTH : ℚ) - 1)| * 2)))) := rfl

/-- Witness for C7: the corner pixel (0, 0) is exactly the navy top color,
fully opaque, since the overlay's tent alpha vanishes at the left edge. -/
theorem paint_background_gradients_witness :
    paint_background.pix 0 0 = ⟨9, 23, 48, 255⟩ := by
  rw [paint_background_gradients 0 0 (by norm_num [WIDTH]) (by norm_num [HEIGHT])]
  rw [show ((0 : ℕ) : ℚ) / ((HEIGHT : ℚ) - 1) = 0 by simp]
  rw [show ((0 : ℕ) : ℚ) / ((WIDTH : ℚ) - 1) = 0 by simp]
  rw [lerp_color_zero navy_top navy_bottom rfl, lerp_color_zero overlay_start overlay_end rfl]
  rw [show pyint (90 * (1 - |(0.5 : ℚ) - 0| * 2)) = 0 by norm_num [pyint, abs_of_nonneg]]
  rw [overPx_transparent _ _ rfl]
  rfl

lemma maxRadius_eq : maxRadius = 1080 := by
  norm_num [maxRadius, WIDTH, pyint]

lemma hiCenter_eq : hiCenter = (892, 364) := by
  norm_num [hiCenter, WIDTH, HEIGHT, pyint]

lemma hiRadii_eq : hiRadii = (List.range 90).map (fun (k : ℕ) => 1080 - 12 * (k : ℤ)) := by
  unfold hiRadii pyRangeDown
  rw [maxRadius_eq]
  norm_num
  rfl

lemma drawDisks_last_wins (c : ℤ × ℤ) (l : List ℤ) (m : ℕ → ℕ → ℤ) (x y : ℕ) :
    drawDisks c l m x y =
      match (l.filter (fun r => inDisk c r x y)).getLast? with
      | some r => hiAlpha r
      | none => m x y := by
  induction l generalizing m with
  | nil => rfl
  | cons r t ih =>
    show drawDisks c t (fun x y => if inDisk c r x y then hiAlpha r else m x y) x y = _
    rw [ih]
    cases hd : inDisk c r x y with
    | true =>
      cases hfil : t.filter (fun r => inDisk c r x y) with
      | nil => simp [List.filter_cons, hd, hfil]
      | cons q qs =>
        simp only [List.filter_cons, hd, if_true, hfil, List.getLast?_cons_cons]
        cases hql : (q :: qs).getLast? with
        | none => simp [List.getLast?_eq_none_iff] at hql
        | some z => rfl
    | false =>
      cases hlast : (t.filter (fun r => inDisk c r x y)).getLast? with
      | none => simp [List.filter_cons, hd, hlast]
      | some q => simp [List.filter_cons, hd, hlast]

/-- C6: the highlight mask radii run from 1080 down in strictly decreasing
steps of exactly 12 (all strictly positive, ending at 12, the exclusive stop
being 0), each circle of radius r is filled at `int(255 * (1 - r/1080)^2)`
which grows monotonically toward the center, and the circles are painted in
that order onto the mask so that at every pixel the last-drawn (smallest)
covering circle wins. -/
theorem add_highlights_concentric :
    hiRadii.head? = some 1080 ∧
    hiRadii.getLast? = some 12 ∧
    List.Chain' (fun a b => b = a - 12) hiRadii ∧
    (∀ r ∈ hiRadii, 0 < r ∧ r ≤ maxRadius) ∧
    (∀ r rr : ℤ, 0 ≤ r → r ≤ rr → rr ≤ maxRadius → hiAlpha rr ≤ hiAlpha r) ∧
    (∀ x y : ℕ, highlightMask x y =
      match (hiRadii.filter (fun r => inDisk hiCenter r x y)).getLast? with
      | some r => hiAlpha r
      | none => 0) := by
  refine ⟨?_, ?_, ?_, ?_, ?_, ?_⟩
  · rw [hiRadii_eq]; decide
  · rw [hiRadii_eq]; decide
  · rw [hiRadii_eq, List.chain'_map, show (90 : ℕ) = 89 + 1 from rfl,
      List.chain'_range_succ]
    intro m hm
    push_cast
    ring
  · intro r hr
    rw [maxRadius_eq]
    rw [hiRadii_eq] at hr
    obtain ⟨k, hk, rfl⟩ := List.mem_map.mp hr
    rw [List.mem_range] at hk
    omega
  · intro r rr h0 hle hmax
    unfold hiAlpha
    apply pyint_mono
    have hm : ((maxRadius : ℤ) : ℚ) = 1080 := by rw [maxRadius_eq]; norm_num
    rw [hm]
    have hc0 : (0 : ℚ) ≤ (r : ℚ) := by exact_mod_cast h0
    have hcle : (r : ℚ) ≤ (rr : ℚ) := by exact_mod_cast hle
    have hcmax : (rr : ℚ) ≤ 1080 := by
      have : ((rr : ℤ) : ℚ) ≤ ((maxRadius : ℤ) : ℚ) := by exact_mod_cast hmax
      rw [hm] at this
      exact this
    have h1 : (0 : ℚ) ≤ 1 - (rr : ℚ) / 1080 := by
      rw [sub_nonneg, div_le_one (by norm_num : (0 : ℚ) < 1080)]
      exact hcmax
    have h2 : 1 - (rr : ℚ) / 1080 ≤ 1 - (r : ℚ) / 1080 := by
      have hdiv : (r : ℚ) / 1080 ≤ (rr : ℚ) / 1080 := by gcongr
      linarith
    have h3 := pow_le_pow_left₀ h1 h2 2
    linarith
  · intro x y
    exact drawDisks_last_wins hiCenter hiRadii (fun _ _ => 0) x y

/-- Witness for C6: at the glow center (892, 364) every circle covers the
pixel, so the last-drawn radius-12 circle wins and the mask holds
`int(255 * (1 - 12/1080)^2) = 249`. -/
theorem add_highlights_concentric_witness : highlightMask 892 364 = 249 := by
  have h := add_highlights_concentric
  rw [h.2.2.2.2.2 892 364, hiCenter_eq, hiRadii_eq]
  rw [show (((List.range 90).map (fun (k : ℕ) => (1080 : ℤ) - 12 * (k : ℤ))).filter
      (fun r => inDisk (892, 364) r 892 364)).getLast? = some 12 by decide]
  show hiAlpha 12 = 249
  unfold hiAlpha
  rw [show ((maxRadius : ℤ) : ℚ) = 1080 by rw [maxRadius_eq]; norm_num]
  norm_num [pyint]

/-- C8: the panel stage's bar chart is exactly 3 rows x 7 columns of rounded
rectangles, drawn inside the panel command list; the bar at (row, col) spans
from its per-row baseline `chart_top + row * 160` up by
`(sin((row + col/2) * 0.7) * 0.3 + 0.6) * 120` pixels and is filled with the
accent color at index `(row + col) % 4` of the fixed 4-color accent palette
at alpha 220. -/
theorem add_panels_bar_chart (sinq cosq : ℚ → ℚ) :
    (chartBars sinq).length = 21 ∧
    (∃ l1 l2, panelCmds sinq cosq = l1 ++ chartBars sinq ++ l2) ∧
    (∀ row col : ℕ, row < 3 → col < 7 →
      ∀ h : row * 7 + col < (chartBars sinq).length,
        (chartBars sinq).get ⟨row * 7 + col, h⟩ = chartBar sinq row col) ∧
    (∀ row col : ℕ,
      chartBar sinq row col =
        DrawCmd.roundedRectCmd
          ⟨chartLeft + (col : ℚ) * (barWidth + 22),
           (chartTop + (row : ℚ) * 160) -
             (sinq (((row : ℚ) + (col : ℚ) / 2) * 0.7) * 0.3 + 0.6) * 120,
           chartLeft + (col : ℚ) * (barWidth + 22) + barWidth,
           chartTop + (row : ℚ) * 160⟩ 12
          (some (pxOfColor (accents.getD ((row + col) % 4) []) 220)) none 0) := by
  refine ⟨rfl, ?_, ?_, ?_⟩
  · exact ⟨mainPanelCmd :: (trafficDotCmds ++ navBarCmds),
      sparkCmds cosq ++ floatCardCmds, by simp [panelCmds, List.append_assoc]⟩
  · intro row col h3 h7 h
    interval_cases row <;> interval_cases col <;> rfl
  · intro row col
    rfl

/-- Witness for C8: with the zero function in place of the library sine, bar
(row 2, col 3) spans 72 = (0 * 0.3 + 0.6) * 120 pixels above the baseline
602.8 and is filled with the magenta accent, index (2 + 3) % 4 = 1. -/
theorem add_panels_bar_chart_witness :
    chartBar (fun _ => 0) 2 3 =
      DrawCmd.roundedRectCmd ⟨788, 2654 / 5, 830, 3014 / 5⟩ 12
        (some ⟨244, 114, 182, 220⟩) none 0 ∧
    (chartBars (fun _ => 0)).length = 21 := by
  have h := add_panels_bar_chart (fun _ => 0) (fun _ => 0)
  refine ⟨?_, h.1⟩
  rw [h.2.2.2 2 3]
  norm_num [chartLeft, chartTop, navX, mainPanelBox, barWidth, accents, WIDTH, HEIGHT,
    pxOfColor, magenta]

/-- C9 (the code evaluated at the failing input): with working directory
`/root/workspace` and destination `--output /tmp/hero.png` (absolute, outside
the working directory), `render` succeeds and the file is written, but the
completion message's `relative_to(Path.cwd())` raises ValueError, so no path
is reported and the process exits non-zero — a successful write with a
non-zero exit status. -/
theorem main_successful_write_nonzero_exit :
    (pyMain ⟨true, ["tmp", "hero.png"]⟩ ⟨true, ["root", "workspace"]⟩).wroteFile = true ∧
    (pyMain ⟨true, ["tmp", "hero.png"]⟩ ⟨true, ["root", "workspace"]⟩).printedPath = none ∧
    (pyMain ⟨true, ["tmp", "hero.png"]⟩ ⟨true, ["root", "workspace"]⟩).exitCode = 1 := by
  refine ⟨?_, ?_, ?_⟩ <;> rfl

end HeroRender
